import Mathlib

/-!
Verification of the funding-interval arbitrage backtest core.

Shallow embedding, over exact rationals, of:
- `src/backtest/vwap_calculator.py` (`VWAPCalculator.calculate_vwap`,
  `VWAPCalculator.calculate_entry_exit_vwap`),
- `src/backtest/trade_direction.py` (`TradeDirectionDeterminer.determine_direction`),
- `src/backtest/pnl_calculator.py` (`PnLCalculator.calculate_pnl` and helpers),
- `src/backtest/backtest_engine.py` (`BacktestEngine.execute_trade`,
  `BacktestEngine.run_backtest`).

Python floats are modelled as rationals; Python exceptions (the `ValueError`
of the direction resolver, `ZeroDivisionError` in the price-P&L divisions)
are modelled with `Except`; `None` is modelled with `Option`.
-/

deriving instance DecidableEq for Except

namespace FundingArb

/-- One OHLCV candle row, as consumed by `VWAPCalculator.calculate_vwap`
(timestamps already normalised to epoch milliseconds). -/
structure Candle where
  timestamp : Int
  high : ℚ
  low : ℚ
  close : ℚ
  volume : ℚ
deriving DecidableEq, Repr

/-- Typical price `(high + low + close) / 3` of one candle. -/
def typicalPrice (c : Candle) : ℚ :=
  (c.high + c.low + c.close) / 3

/-- The window filter of `calculate_vwap`: candles with
`start_ms <= ts <= end_ms`. -/
def vwapWindow (klines : List Candle) (startMs endMs : Int) : List Candle :=
  klines.filter fun c => decide (startMs ≤ c.timestamp) && decide (c.timestamp ≤ endMs)

/-- `VWAPCalculator.calculate_vwap`: filter the window; `none` when fewer than
`minRequiredCandles` candles remain or when the volume sum is zero; otherwise
`Σ(typical_price * volume) / Σ(volume)`. -/
def calculate_vwap (klines : List Candle) (startMs endMs : Int)
    (minRequiredCandles : Nat) : Option ℚ :=
  if (vwapWindow klines startMs endMs).length < minRequiredCandles then
    none
  else if ((vwapWindow klines startMs endMs).map Candle.volume).sum = 0 then
    none
  else
    some (((vwapWindow klines startMs endMs).map fun c => typicalPrice c * c.volume).sum /
      ((vwapWindow klines startMs endMs).map Candle.volume).sum)

/-- `VWAPCalculator.calculate_entry_exit_vwap`: entry window `[t - w, t]`,
exit window `[t, t + w]` (w in minutes, times in ms), computed per exchange;
returns `(vwap_entry_bn, vwap_entry_by, vwap_exit_bn, vwap_exit_by, is_valid)`
where `is_valid` is exactly "all four VWAPs are not None".
A missing timestamp or a missing/empty kline frame yields all-`none`, `false`. -/
def calculate_entry_exit_vwap (timestamp_ms : Option Int)
    (klines_binance klines_bybit : Option (List Candle))
    (vwap_window_minutes : Int) :
    Option ℚ × Option ℚ × Option ℚ × Option ℚ × Bool :=
  match timestamp_ms with
  | none => (none, none, none, none, false)
  | some t =>
    match klines_binance, klines_bybit with
    | some kb, some ky =>
      if kb.isEmpty || ky.isEmpty then (none, none, none, none, false)
      else
        let entry_start := t - vwap_window_minutes * 60000
        let exit_end := t + vwap_window_minutes * 60000
        let vwap_entry_bn := calculate_vwap kb entry_start t 3
        let vwap_exit_bn := calculate_vwap kb t exit_end 3
        let vwap_entry_by := calculate_vwap ky entry_start t 3
        let vwap_exit_by := calculate_vwap ky t exit_end 3
        (vwap_entry_bn, vwap_entry_by, vwap_exit_bn, vwap_exit_by,
          vwap_entry_bn.isSome && vwap_exit_bn.isSome &&
          vwap_entry_by.isSome && vwap_exit_by.isSome)
    | _, _ => (none, none, none, none, false)

/-- The four trade directions of `trade_direction.py`. -/
inductive TradeDirection where
  | LONG_BYBIT_SHORT_BINANCE
  | SHORT_BYBIT_LONG_BINANCE
  | LONG_BINANCE_SHORT_BYBIT
  | SHORT_BINANCE_LONG_BYBIT
deriving DecidableEq, Repr

/-- `TradeDirectionDeterminer.determine_direction`: maps pay flags and the
paying exchange's rate sign to `(direction, receiving_exchange,
paying_exchange)`; raises (`Except.error`) unless exactly one flag is true. -/
def determine_direction (bybit_pay binance_pay : Bool)
    (bybit_rate binance_rate : ℚ) :
    Except String (TradeDirection × String × String) :=
  if bybit_pay && !binance_pay then
    if bybit_rate < 0 then
      .ok (.LONG_BYBIT_SHORT_BINANCE, "bybit", "binance")
    else
      .ok (.SHORT_BYBIT_LONG_BINANCE, "binance", "bybit")
  else if binance_pay && !bybit_pay then
    if binance_rate < 0 then
      .ok (.LONG_BINANCE_SHORT_BYBIT, "binance", "bybit")
    else
      .ok (.SHORT_BINANCE_LONG_BYBIT, "bybit", "binance")
  else
    .error "Invalid pay flags: exactly one must be True."

/-- Fee configuration of `BacktestConfig` (the fields the P&L engine reads). -/
structure BacktestConfig where
  maker_fee : ℚ
  taker_fee : ℚ
deriving DecidableEq, Repr

/-- `PnLCalculator.calculate_price_pnl`: per-leg relative moves, signed by
direction. Division by a zero entry VWAP is Python's `ZeroDivisionError`,
modelled as `Except.error`. -/
def calculate_price_pnl (direction : TradeDirection)
    (vwap_entry_bn vwap_exit_bn vwap_entry_by vwap_exit_by : ℚ)
    (position_size : ℚ) : Except String ℚ :=
  if vwap_entry_by = 0 ∨ vwap_entry_bn = 0 then
    .error "division by zero"
  else
    match direction with
    | .LONG_BYBIT_SHORT_BINANCE =>
      .ok (position_size * ((vwap_exit_by - vwap_entry_by) / vwap_entry_by +
        -(vwap_exit_bn - vwap_entry_bn) / vwap_entry_bn))
    | .SHORT_BYBIT_LONG_BINANCE =>
      .ok (position_size * (-(vwap_exit_by - vwap_entry_by) / vwap_entry_by +
        (vwap_exit_bn - vwap_entry_bn) / vwap_entry_bn))
    | .LONG_BINANCE_SHORT_BYBIT =>
      .ok (position_size * ((vwap_exit_bn - vwap_entry_bn) / vwap_entry_bn +
        -(vwap_exit_by - vwap_entry_by) / vwap_entry_by))
    | .SHORT_BINANCE_LONG_BYBIT =>
      .ok (position_size * (-(vwap_exit_bn - vwap_entry_bn) / vwap_entry_bn +
        (vwap_exit_by - vwap_entry_by) / vwap_entry_by))

/-- `PnLCalculator.calculate_funding_pnl`: funding is received from the long
side's exchange, as `position_size * |rate|`. -/
def calculate_funding_pnl (direction : TradeDirection)
    (binance_rate bybit_rate position_size : ℚ) : ℚ :=
  match direction with
  | .LONG_BYBIT_SHORT_BINANCE => position_size * |bybit_rate|
  | .SHORT_BYBIT_LONG_BINANCE => position_size * |binance_rate|
  | .LONG_BINANCE_SHORT_BYBIT => position_size * |binance_rate|
  | .SHORT_BINANCE_LONG_BYBIT => position_size * |bybit_rate|

/-- `PnLCalculator.calculate_fees`: taker fee on both legs at entry and at
exit, `(entry_fee, exit_fee)`. -/
def calculate_fees (position_size : ℚ) (config : BacktestConfig) : ℚ × ℚ :=
  (position_size * config.taker_fee * 2, position_size * config.taker_fee * 2)

/-- The dictionary returned by `PnLCalculator.calculate_pnl`. -/
structure PnLResult where
  price_pnl : ℚ
  funding_pnl : ℚ
  entry_fee : ℚ
  exit_fee : ℚ
  total_fees : ℚ
  net_pnl : ℚ
  pnl_pct : ℚ
deriving DecidableEq, Repr

/-- `PnLCalculator.calculate_pnl`: price P&L + funding P&L - fees, with
`pnl_pct` relative to `2 * position_size` (0 when that is not positive). -/
def calculate_pnl (direction : TradeDirection)
    (vwap_entry_bn vwap_exit_bn vwap_entry_by vwap_exit_by : ℚ)
    (binance_rate bybit_rate position_size : ℚ)
    (config : BacktestConfig) : Except String PnLResult :=
  match calculate_price_pnl direction vwap_entry_bn vwap_exit_bn
      vwap_entry_by vwap_exit_by position_size with
  | .error e => .error e
  | .ok price_pnl =>
    let funding_pnl := calculate_funding_pnl direction binance_rate bybit_rate position_size
    let entry_fee := (calculate_fees position_size config).1
    let exit_fee := (calculate_fees position_size config).2
    let total_fees := entry_fee + exit_fee
    let net_pnl := price_pnl + funding_pnl - total_fees
    let pnl_pct := if 0 < 2 * position_size then net_pnl / (2 * position_size) * 100 else 0
    .ok ⟨price_pnl, funding_pnl, entry_fee, exit_fee, total_fees, net_pnl, pnl_pct⟩

/-- One opportunity record as read by `BacktestEngine.run_backtest`
(dictionary keys become fields; `.get` defaults are irrelevant here since
every key the engine reads is modelled explicitly). -/
structure Opportunity where
  timestamp : Int
  symbol : String
  K : ℚ
  bybit_pay : Bool
  binance_pay : Bool
  bybit_rate : ℚ
  binance_rate : ℚ
  vwap_entry_binance : Option ℚ
  vwap_exit_binance : Option ℚ
  vwap_entry_bybit : Option ℚ
  vwap_exit_bybit : Option ℚ
  vwap_valid : Bool
deriving DecidableEq, Repr

/-- `TradeRecord` of `backtest_engine.py`. -/
structure TradeRecord where
  timestamp : Int
  symbol : String
  K : ℚ
  direction : TradeDirection
  price_pnl : ℚ
  funding_pnl : ℚ
  entry_fee : ℚ
  exit_fee : ℚ
  total_fees : ℚ
  net_pnl : ℚ
  pnl_pct : ℚ
deriving DecidableEq, Repr

/-- Construction of a `TradeRecord` from the opportunity and the P&L result. -/
def mkTradeRecord (opp : Opportunity) (direction : TradeDirection)
    (pnl : PnLResult) : TradeRecord :=
  ⟨opp.timestamp, opp.symbol, opp.K, direction, pnl.price_pnl, pnl.funding_pnl,
    pnl.entry_fee, pnl.exit_fee, pnl.total_fees, pnl.net_pnl, pnl.pnl_pct⟩

/-- One point of the equity curve appended by `run_backtest`. -/
structure EquityPoint where
  timestamp : Int
  cumulative_pnl : ℚ
  portfolio_value : ℚ
  trades_count : Nat
deriving DecidableEq, Repr

/-- Mutable state of a `BacktestEngine` instance. -/
structure EngineState where
  initial_capital : ℚ
  config : BacktestConfig
  trades : List TradeRecord
  cumulative_pnl : ℚ
  portfolio_value : ℚ
  equity_curve : List EquityPoint
deriving DecidableEq, Repr

/-- `BacktestEngine.__init__`. -/
def initEngine (initial_capital : ℚ) (config : BacktestConfig) : EngineState :=
  ⟨initial_capital, config, [], 0, initial_capital, []⟩

/-- `BacktestEngine.execute_trade`: `none` (and unchanged state) when
`vwap_valid` is false or `K <= 0`; otherwise builds the trade record and
updates `cumulative_pnl` and `portfolio_value`. -/
def execute_trade (st : EngineState) (opp : Opportunity)
    (direction : TradeDirection) (pnl : PnLResult) :
    Option TradeRecord × EngineState :=
  if opp.vwap_valid = false then
    (none, st)
  else if opp.K ≤ 0 then
    (none, st)
  else
    (some (mkTradeRecord opp direction pnl),
      { st with
        cumulative_pnl := st.cumulative_pnl + (mkTradeRecord opp direction pnl).net_pnl,
        portfolio_value := st.initial_capital +
          (st.cumulative_pnl + (mkTradeRecord opp direction pnl).net_pnl) })

/-- One iteration of the loop body of `BacktestEngine.run_backtest`: skip
(failed + 1) on invalid/missing VWAPs, on a direction `ValueError`, on a
P&L exception, or when `execute_trade` declines; otherwise append the trade
and an equity point. -/
def processOpportunity (st : EngineState) (failed : Nat) (opp : Opportunity) :
    EngineState × Nat :=
  if opp.vwap_valid = false then
    (st, failed + 1)
  else if opp.vwap_entry_binance.isNone || opp.vwap_exit_binance.isNone ||
      opp.vwap_entry_bybit.isNone || opp.vwap_exit_bybit.isNone then
    (st, failed + 1)
  else
    match determine_direction opp.bybit_pay opp.binance_pay
        opp.bybit_rate opp.binance_rate with
    | .error _ => (st, failed + 1)
    | .ok (direction, _, _) =>
      match calculate_pnl direction
          (opp.vwap_entry_binance.getD 0) (opp.vwap_exit_binance.getD 0)
          (opp.vwap_entry_bybit.getD 0) (opp.vwap_exit_bybit.getD 0)
          opp.binance_rate opp.bybit_rate (opp.K / 2) st.config with
      | .error _ => (st, failed + 1)
      | .ok pnl =>
        match execute_trade st opp direction pnl with
        | (none, st2) => (st2, failed + 1)
        | (some trade, st2) =>
          ({ st2 with
            trades := st2.trades ++ [trade],
            equity_curve := st2.equity_curve ++
              [⟨opp.timestamp, st2.cumulative_pnl, st2.portfolio_value,
                (st2.trades ++ [trade]).length⟩] }, failed)

/-- The fold of `run_backtest` over the opportunity list, carrying the
engine state and the `failed_trades` counter. -/
def runFold (opps : List Opportunity) (st : EngineState) (failed : Nat) :
    EngineState × Nat :=
  opps.foldl (fun p opp => processOpportunity p.1 p.2 opp) (st, failed)

/-- The dictionary returned by `BacktestEngine.run_backtest`. -/
structure BacktestResult where
  trades : List TradeRecord
  equity_curve : List EquityPoint
  final_pnl : ℚ
  final_portfolio_value : ℚ
  total_trades : Nat
  failed_trades : Nat
  return_pct : ℚ
deriving DecidableEq, Repr

/-- `BacktestEngine.run_backtest`. -/
def run_backtest (st : EngineState) (opps : List Opportunity) : BacktestResult :=
  { trades := (runFold opps st 0).1.trades,
    equity_curve := (runFold opps st 0).1.equity_curve,
    final_pnl := (runFold opps st 0).1.cumulative_pnl,
    final_portfolio_value := (runFold opps st 0).1.portfolio_value,
    total_trades := (runFold opps st 0).1.trades.length,
    failed_trades := (runFold opps st 0).2,
    return_pct :=
      if 0 < (runFold opps st 0).1.initial_capital then
        (runFold opps st 0).1.cumulative_pnl / (runFold opps st 0).1.initial_capital * 100
      else 0 }

/-- Equity invariant carried by the engine state: the stored initial capital
is `cap`, the portfolio value is `cap` plus the cumulative P&L, and every
equity point already recorded satisfies the same identity. -/
def equityInvariant (cap : ℚ) (st : EngineState) : Prop :=
  st.initial_capital = cap ∧
  st.portfolio_value = cap + st.cumulative_pnl ∧
  ∀ pt ∈ st.equity_curve, pt.portfolio_value = cap + pt.cumulative_pnl

/-- Three candles whose prices are all zero but whose volume is positive:
their VWAP is 0, not a positive number. -/
def zeroPriceKlines3 : List Candle :=
  [⟨0, 0, 0, 0, 1⟩, ⟨1, 0, 0, 0, 1⟩, ⟨2, 0, 0, 0, 1⟩]

/-- Zero-price candles covering both the entry window `[540000, 600000]` and
the exit window `[600000, 660000]` of an opportunity at `t = 600000` ms with
a 1-minute VWAP window. -/
def zeroPriceKlines5 : List Candle :=
  [⟨540000, 0, 0, 0, 1⟩, ⟨570000, 0, 0, 0, 1⟩, ⟨600000, 0, 0, 0, 1⟩,
    ⟨630000, 0, 0, 0, 1⟩, ⟨660000, 0, 0, 0, 1⟩]

/-- Three well-formed candles with high 10, low 8, close 9, volume 1:
their VWAP is the typical price 9. -/
def flatKlines : List Candle :=
  [⟨0, 10, 8, 9, 1⟩, ⟨1, 10, 8, 9, 1⟩, ⟨2, 10, 8, 9, 1⟩]

/-- The fee configuration of the spec's scenario example:
`taker_fee = 0.0004` (and the default `maker_fee = 0.0002`). -/
def scenarioConfig : BacktestConfig := ⟨2/10000, 4/10000⟩

/-- The spec's scenario example: `t = 1000`, `binance_pays = True`,
`bybit_pays = False`, `binance_rate = -0.001`, VWAPs
`entry_bn = 100, exit_bn = 101, entry_by = 50, exit_by = 49.5`,
`capital_allocated = 10000`. -/
def scenarioOpp : Opportunity :=
  ⟨1000, "X", 10000, false, true, 0, -1/1000,
    some 100, some 101, some 50, some (99/2), true⟩

/-- An opportunity whose `vwap_entry_bybit` is `None` although its validity
flag is set. -/
def noneVwapOpp : Opportunity :=
  ⟨1000, "X", 10000, false, true, 0, -1/1000,
    some 100, some 101, none, some (99/2), true⟩

/-- An opportunity with both pay flags true (the direction resolver's
validation error case), all VWAPs present and positive capital. -/
def bothPayOpp : Opportunity :=
  ⟨1000, "X", 100, true, true, 0, 0, some 1, some 1, some 1, some 1, true⟩

/-- The equity point produced by running the engine on the scenario
opportunity with initial capital 10000. -/
def scenarioPoint : EquityPoint :=
  ⟨1000, 97, 10097, 1⟩

theorem runFold_cons (opp : Opportunity) (rest : List Opportunity)
    (st : EngineState) (f : Nat) :
    runFold (opp :: rest) st f =
      runFold rest (processOpportunity st f opp).1 (processOpportunity st f opp).2 := rfl

theorem execute_trade_cases (st : EngineState) (opp : Opportunity)
    (d : TradeDirection) (pnl : PnLResult) :
    execute_trade st opp d pnl = (none, st) ∨
    execute_trade st opp d pnl =
      (some (mkTradeRecord opp d pnl),
        { st with
          cumulative_pnl := st.cumulative_pnl + (mkTradeRecord opp d pnl).net_pnl,
          portfolio_value := st.initial_capital +
            (st.cumulative_pnl + (mkTradeRecord opp d pnl).net_pnl) }) := by
  unfold execute_trade
  split
  · exact Or.inl rfl
  · split
    · exact Or.inl rfl
    · exact Or.inr rfl

theorem execute_trade_of_K_nonpos (st : EngineState) (opp : Opportunity)
    (d : TradeDirection) (pnl : PnLResult) (hK : opp.K ≤ 0) :
    execute_trade st opp d pnl = (none, st) := by
  unfold execute_trade
  split
  · rfl
  · rfl

theorem processOpportunity_cases (st : EngineState) (f : Nat) (opp : Opportunity) :
    processOpportunity st f opp = (st, f + 1) ∨
    ∃ trade : TradeRecord,
      processOpportunity st f opp =
        ({ st with
          cumulative_pnl := st.cumulative_pnl + trade.net_pnl,
          portfolio_value := st.initial_capital + (st.cumulative_pnl + trade.net_pnl),
          trades := st.trades ++ [trade],
          equity_curve := st.equity_curve ++
            [⟨opp.timestamp, st.cumulative_pnl + trade.net_pnl,
              st.initial_capital + (st.cumulative_pnl + trade.net_pnl),
              (st.trades ++ [trade]).length⟩] }, f) := by
  unfold processOpportunity
  split
  · exact Or.inl rfl
  · split
    · exact Or.inl rfl
    · split
      · exact Or.inl rfl
      · next direction recv pay hdir =>
        split
        · exact Or.inl rfl
        · next pnl hpnl =>
          split
          · next st2 hexec =>
            rcases execute_trade_cases st opp direction pnl with hcase | hcase
            · rw [hexec] at hcase
              injection hcase with h1 h2
              rw [h2]
              exact Or.inl rfl
            · rw [hexec] at hcase
              simp at hcase
          · next trade st2 hexec =>
            rcases execute_trade_cases st opp direction pnl with hcase | hcase
            · rw [hexec] at hcase
              simp at hcase
            · rw [hexec] at hcase
              injection hcase with h1 h2
              injection h1 with h1
              subst h1
              subst h2
              exact Or.inr ⟨mkTradeRecord opp direction pnl, rfl⟩

theorem sum_map_nonneg_q {α : Type} (l : List α) (f : α → ℚ)
    (h : ∀ x ∈ l, 0 ≤ f x) : 0 ≤ (l.map f).sum := by
  apply List.sum_nonneg
  intro x hx
  obtain ⟨c, hc, rfl⟩ := List.mem_map.1 hx
  exact h c hc

theorem sum_map_mul_left_q {α : Type} (l : List α) (f : α → ℚ) (r : ℚ) :
    (l.map fun x => r * f x).sum = r * (l.map f).sum := by
  induction l with
  | nil => simp
  | cons a t ih => simp [ih, mul_add]

theorem sum_typical_mul_vol_pos (l : List Candle)
    (h : ∀ c ∈ l, 0 < typicalPrice c ∧ 0 ≤ c.volume)
    (hv : 0 < (l.map Candle.volume).sum) :
    0 < (l.map fun c => typicalPrice c * c.volume).sum := by
  induction l with
  | nil => simp at hv
  | cons a t ih =>
    have ht : ∀ c ∈ t, 0 < typicalPrice c ∧ 0 ≤ c.volume :=
      fun c hc => h c (List.mem_cons_of_mem a hc)
    have ha := h a (List.mem_cons_self a t)
    have hrest : 0 ≤ (t.map fun c => typicalPrice c * c.volume).sum := by
      apply sum_map_nonneg_q
      intro c hc
      exact mul_nonneg (ht c hc).1.le (ht c hc).2
    simp only [List.map_cons, List.sum_cons] at hv ⊢
    rcases eq_or_lt_of_le ha.2 with hz | hp
    · have hz' : a.volume = 0 := hz.symm
      rw [hz'] at hv
      have hvt : 0 < (t.map Candle.volume).sum := by simpa using hv
      have := ih ht hvt
      rw [hz']
      simpa using this
    · have h1 : 0 < typicalPrice a * a.volume := mul_pos ha.1 hp
      linarith

theorem calculate_vwap_eq_some (klines : List Candle) (s e : Int) (m : Nat) (v : ℚ)
    (hv : calculate_vwap klines s e m = some v) :
    ¬ (vwapWindow klines s e).length < m ∧
    ((vwapWindow klines s e).map Candle.volume).sum ≠ 0 ∧
    v = ((vwapWindow klines s e).map fun c => typicalPrice c * c.volume).sum /
      ((vwapWindow klines s e).map Candle.volume).sum := by
  unfold calculate_vwap at hv
  split at hv
  · simp at hv
  · next h1 =>
    split at hv
    · simp at hv
    · next h2 =>
      exact ⟨h1, h2, (Option.some_inj.mp hv).symm⟩

theorem processOpportunity_preserves_inv (cap : ℚ) (st : EngineState) (f : Nat)
    (opp : Opportunity) (hinv : equityInvariant cap st) :
    equityInvariant cap (processOpportunity st f opp).1 := by
  rcases processOpportunity_cases st f opp with hcase | ⟨trade, hcase⟩
  · rw [hcase]
    exact hinv
  · rw [hcase]
    obtain ⟨hcap, hpv, hpts⟩ := hinv
    refine ⟨hcap, by rw [hcap], ?_⟩
    intro pt hpt
    simp only [List.mem_append, List.mem_singleton] at hpt
    rcases hpt with hpt | rfl
    · exact hpts pt hpt
    · simpa using congrArg (· + (st.cumulative_pnl + trade.net_pnl)) hcap

theorem runFold_preserves_inv (cap : ℚ) (opps : List Opportunity) :
    ∀ (st : EngineState) (f : Nat), equityInvariant cap st →
      equityInvariant cap (runFold opps st f).1 := by
  induction opps with
  | nil => intro st f h; exact h
  | cons opp rest ih =>
    intro st f h
    rw [runFold_cons]
    exact ih _ _ (processOpportunity_preserves_inv cap st f opp h)

theorem runFold_counts (opps : List Opportunity) :
    ∀ (st : EngineState) (f : Nat),
      (runFold opps st f).1.trades.length + (runFold opps st f).2 =
        st.trades.length + f + opps.length ∧
      (runFold opps st f).1.equity_curve.length + st.trades.length =
        (runFold opps st f).1.trades.length + st.equity_curve.length := by
  induction opps with
  | nil => exact fun st f => ⟨by simp [runFold], by simp [runFold]; omega⟩
  | cons opp rest ih =>
    intro st f
    rw [runFold_cons]
    rcases processOpportunity_cases st f opp with hcase | ⟨trade, hcase⟩
    · rw [hcase]
      obtain ⟨ha, hb⟩ := ih st (f + 1)
      constructor
      · rw [ha]
        simp only [List.length_cons]
        omega
      · exact hb
    · rw [hcase]
      obtain ⟨ha, hb⟩ := ih _ f
      constructor
      · rw [ha]
        simp only [List.length_append, List.length_cons, List.length_nil, List.length_singleton]
        omega
      · simp only [List.length_append, List.length_cons, List.length_nil,
          List.length_singleton] at hb ⊢
        omega

theorem determine_direction_table (bybit_pay binance_pay : Bool)
    (bybit_rate binance_rate : ℚ) (h : bybit_pay ≠ binance_pay) :
    determine_direction bybit_pay binance_pay bybit_rate binance_rate =
      (if bybit_pay then
        if bybit_rate < 0 then
          Except.ok (TradeDirection.LONG_BYBIT_SHORT_BINANCE, "bybit", "binance")
        else
          Except.ok (TradeDirection.SHORT_BYBIT_LONG_BINANCE, "binance", "bybit")
      else
        if binance_rate < 0 then
          Except.ok (TradeDirection.LONG_BINANCE_SHORT_BYBIT, "binance", "bybit")
        else
          Except.ok (TradeDirection.SHORT_BINANCE_LONG_BYBIT, "bybit", "binance")) := by
  cases bybit_pay <;> cases binance_pay <;>
    first
    | exact absurd rfl h
    | simp [determine_direction]

theorem determine_direction_error_of_eq (b₁ b₂ : Bool) (r₁ r₂ : ℚ)
    (h : b₁ = b₂) :
    determine_direction b₁ b₂ r₁ r₂ =
      Except.error "Invalid pay flags: exactly one must be True." := by
  subst h
  cases b₁ <;> rfl

/-- Claim C1: on the scenario opportunity (`binance_pays = True`,
`bybit_pays = False`, `binance_rate = -0.001`, VWAPs 100/101/50/49.5,
`capital_allocated = 10000`, `taker_fee = 0.0004`) the direction resolver
returns `LongBinance_ShortBybit`, the position size is 5000, and the P&L
engine returns price P&L 100, funding P&L 5, total fees 8 (4 entry + 4
exit) and net P&L 97 (with `pnl_pct = 0.97`). -/
theorem C1_scenario :
    scenarioOpp.K / 2 = 5000 ∧
    determine_direction scenarioOpp.bybit_pay scenarioOpp.binance_pay
        scenarioOpp.bybit_rate scenarioOpp.binance_rate =
      Except.ok (TradeDirection.LONG_BINANCE_SHORT_BYBIT, "binance", "bybit") ∧
    calculate_pnl TradeDirection.LONG_BINANCE_SHORT_BYBIT 100 101 50 (99/2)
        (-1/1000) 0 5000 scenarioConfig =
      Except.ok ⟨100, 5, 4, 4, 8, 97, 97/100⟩ := by
  refine ⟨by norm_num [scenarioOpp], ?_, ?_⟩
  · norm_num [determine_direction, scenarioOpp]
  · norm_num [calculate_pnl, calculate_price_pnl, calculate_funding_pnl,
      calculate_fees, scenarioConfig,
      abs_of_nonpos (show (-1/1000 : ℚ) ≤ 0 by norm_num),
      abs_of_pos (show (0:ℚ) < 1/1000 by norm_num)]

/-- Claim C4: with exactly one pay flag true the direction resolver returns
(does not raise) exactly the direction of the decision table: paying
exchange bybit with rate < 0 gives LONG_BYBIT_SHORT_BINANCE, bybit with
rate >= 0 gives SHORT_BYBIT_LONG_BINANCE, binance with rate < 0 gives
LONG_BINANCE_SHORT_BYBIT, binance with rate >= 0 gives
SHORT_BINANCE_LONG_BYBIT; a rate of exactly 0 takes the else branch. -/
theorem C4_direction_total (bybit_pay binance_pay : Bool)
    (bybit_rate binance_rate : ℚ) (h : bybit_pay ≠ binance_pay) :
    determine_direction bybit_pay binance_pay bybit_rate binance_rate =
      (if bybit_pay then
        if bybit_rate < 0 then
          Except.ok (TradeDirection.LONG_BYBIT_SHORT_BINANCE, "bybit", "binance")
        else
          Except.ok (TradeDirection.SHORT_BYBIT_LONG_BINANCE, "binance", "bybit")
      else
        if binance_rate < 0 then
          Except.ok (TradeDirection.LONG_BINANCE_SHORT_BYBIT, "binance", "bybit")
        else
          Except.ok (TradeDirection.SHORT_BINANCE_LONG_BYBIT, "bybit", "binance")) :=
  determine_direction_table bybit_pay binance_pay bybit_rate binance_rate h

/-- Witness for C4 at the boundary rate 0: paying exchange bybit with rate
exactly 0 takes the else branch and does not raise. -/
theorem C4_direction_total_witness :
    determine_direction true false 0 0 =
      Except.ok (TradeDirection.SHORT_BYBIT_LONG_BINANCE, "binance", "bybit") := by
  have h := C4_direction_total true false 0 0 (by decide)
  simpa using h

/-- Claim C5: every equity point of a run started from a fresh engine
satisfies `portfolio_value = initial_capital + cumulative_pnl`, and the
invariant is preserved by processing any single opportunity (in particular
by every accepted trade). -/
theorem C5_equity_invariant (cap : ℚ) (cfg : BacktestConfig)
    (opps : List Opportunity) :
    (∀ pt ∈ (run_backtest (initEngine cap cfg) opps).equity_curve,
      pt.portfolio_value = cap + pt.cumulative_pnl) ∧
    (∀ (st : EngineState) (f : Nat) (opp : Opportunity),
      equityInvariant cap st → equityInvariant cap (processOpportunity st f opp).1) := by
  constructor
  · have hinit : equityInvariant cap (initEngine cap cfg) :=
      ⟨rfl, by simp [initEngine], by simp [initEngine]⟩
    have h := runFold_preserves_inv cap opps (initEngine cap cfg) 0 hinit
    intro pt hpt
    exact h.2.2 pt hpt
  · exact fun st f opp h => processOpportunity_preserves_inv cap st f opp h

/-- Witness for C5: the single equity point of the scenario run has
`portfolio_value = 10097 = 10000 + 97`. -/
theorem C5_equity_invariant_witness :
    scenarioPoint.portfolio_value = 10000 + scenarioPoint.cumulative_pnl :=
  (C5_equity_invariant 10000 scenarioConfig [scenarioOpp]).1 scenarioPoint (by
    norm_num [run_backtest, runFold, processOpportunity, determine_direction,
      calculate_pnl, calculate_price_pnl, calculate_funding_pnl, calculate_fees,
      execute_trade, mkTradeRecord, initEngine, scenarioOpp, scenarioConfig,
      scenarioPoint, List.foldl,
      abs_of_nonpos (show (-1/1000 : ℚ) ≤ 0 by norm_num),
      abs_of_pos (show (0:ℚ) < 1/1000 by norm_num)])

/-- Claim C6: an opportunity with an unset validity flag, a missing VWAP
value, or non-positive allocated capital is skipped: the failed counter
grows by one, the engine state (trade log, equity curve, cumulative P&L,
portfolio value) is unchanged, and the run continues with the remaining
opportunities. -/
theorem C6_skip (st : EngineState) (failed : Nat) (opp : Opportunity)
    (h : opp.vwap_valid = false ∨ opp.vwap_entry_bybit = none ∨
      opp.vwap_exit_bybit = none ∨ opp.vwap_entry_binance = none ∨
      opp.vwap_exit_binance = none ∨ opp.K ≤ 0) :
    processOpportunity st failed opp = (st, failed + 1) ∧
    ∀ rest, runFold (opp :: rest) st failed = runFold rest st (failed + 1) := by
  have hmain : processOpportunity st failed opp = (st, failed + 1) := by
    unfold processOpportunity
    split
    · rfl
    · next h1 =>
      split
      · rfl
      · next h2 =>
        have hK : opp.K ≤ 0 := by
          rcases h with h | h | h | h | h | h
          · exact absurd h h1
          · exact absurd (by simp [h]) h2
          · exact absurd (by simp [h]) h2
          · exact absurd (by simp [h]) h2
          · exact absurd (by simp [h]) h2
          · exact h
        split
        · rfl
        · next direction recv pay hdir =>
          split
          · rfl
          · next pnl hpnl =>
            rw [execute_trade_of_K_nonpos st opp direction pnl hK]
  refine ⟨hmain, fun rest => ?_⟩
  rw [runFold_cons, hmain]

/-- Witness for C6: the spec's scenario of an opportunity with
`vwap_entry_bybit = None` is skipped with `failed_trades` going from 0
to 1 and the engine state unchanged. -/
theorem C6_skip_witness :
    processOpportunity (initEngine 10000 scenarioConfig) 0 noneVwapOpp =
      (initEngine 10000 scenarioConfig, 1) :=
  (C6_skip (initEngine 10000 scenarioConfig) 0 noneVwapOpp
    (Or.inr (Or.inl rfl))).1

/-- Claim C9: the simulation engine is deterministic: two runs on equal
initial capital, equal configuration and equal ordered opportunity lists
produce identical trade logs and identical equity curves (the embedded
engine is a pure function of these inputs). -/
theorem C9_determinism (cap₁ cap₂ : ℚ) (cfg₁ cfg₂ : BacktestConfig)
    (opps₁ opps₂ : List Opportunity)
    (hcap : cap₁ = cap₂) (hcfg : cfg₁ = cfg₂) (hopps : opps₁ = opps₂) :
    (run_backtest (initEngine cap₁ cfg₁) opps₁).trades =
      (run_backtest (initEngine cap₂ cfg₂) opps₂).trades ∧
    (run_backtest (initEngine cap₁ cfg₁) opps₁).equity_curve =
      (run_backtest (initEngine cap₂ cfg₂) opps₂).equity_curve := by
  subst hcap
  subst hcfg
  subst hopps
  exact ⟨rfl, rfl⟩

/-- Witness for C9: two scenario runs agree. -/
theorem C9_determinism_witness :
    (run_backtest (initEngine 10000 scenarioConfig) [scenarioOpp]).trades =
      (run_backtest (initEngine 10000 scenarioConfig) [scenarioOpp]).trades ∧
    (run_backtest (initEngine 10000 scenarioConfig) [scenarioOpp]).equity_curve =
      (run_backtest (initEngine 10000 scenarioConfig) [scenarioOpp]).equity_curve :=
  C9_determinism 10000 10000 scenarioConfig scenarioConfig
    [scenarioOpp] [scenarioOpp] rfl rfl rfl

/-- Claim C10: after a run on a freshly constructed engine,
`total_trades + failed_trades` equals the number of input opportunities
and the equity curve has exactly `total_trades` points. -/
theorem C10_accounting (cap : ℚ) (cfg : BacktestConfig)
    (opps : List Opportunity) :
    (run_backtest (initEngine cap cfg) opps).total_trades +
      (run_backtest (initEngine cap cfg) opps).failed_trades = opps.length ∧
    (run_backtest (initEngine cap cfg) opps).equity_curve.length =
      (run_backtest (initEngine cap cfg) opps).total_trades := by
  obtain ⟨ha, hb⟩ := runFold_counts opps (initEngine cap cfg) 0
  constructor
  · simpa [run_backtest, initEngine] using ha
  · simp only [run_backtest, initEngine] at hb ⊢
    simp at hb
    omega

/-- Claim C2 is false as stated: with zero-price, positive-volume candles
every window VWAP is computed as `0` — present but not strictly positive —
and the validity flag is nevertheless `true`. -/
theorem C2_counterexample :
    calculate_entry_exit_vwap (some 600000) (some zeroPriceKlines5)
        (some zeroPriceKlines5) 1 =
      (some 0, some 0, some 0, some 0, true) ∧ ¬ ((0:ℚ) > 0) := by
  constructor
  · norm_num [calculate_entry_exit_vwap, calculate_vwap, vwapWindow,
      zeroPriceKlines5, typicalPrice, List.filter]
  · exact lt_irrefl 0

/-- Claim C2 (amended): the validity flag attached by the VWAP stage is true
exactly when all four VWAP values are present (not `None`); strict
positivity of the computed VWAP values is not part of the check. -/
theorem C2_flag_iff_present (timestamp_ms : Option Int)
    (klines_binance klines_bybit : Option (List Candle)) (w : Int) :
    (calculate_entry_exit_vwap timestamp_ms klines_binance klines_bybit w).2.2.2.2 = true ↔
      ((calculate_entry_exit_vwap timestamp_ms klines_binance klines_bybit w).1.isSome = true ∧
       (calculate_entry_exit_vwap timestamp_ms klines_binance klines_bybit w).2.1.isSome = true ∧
       (calculate_entry_exit_vwap timestamp_ms klines_binance klines_bybit w).2.2.1.isSome = true ∧
       (calculate_entry_exit_vwap timestamp_ms klines_binance klines_bybit w).2.2.2.1.isSome = true) := by
  rcases timestamp_ms with _ | t
  · simp [calculate_entry_exit_vwap]
  · rcases klines_binance with _ | kb
    · simp [calculate_entry_exit_vwap]
    · rcases klines_bybit with _ | ky
      · simp [calculate_entry_exit_vwap]
      · simp only [calculate_entry_exit_vwap]
        split
        · simp
        · simp only [Bool.and_eq_true]
          constructor
          · rintro ⟨⟨⟨hA, hB⟩, hC⟩, hD⟩
            exact ⟨hA, hC, hB, hD⟩
          · rintro ⟨hA, hC, hB, hD⟩
            exact ⟨⟨⟨hA, hB⟩, hC⟩, hD⟩

/-- Witness for C2: on the zero-price candle data the flag is true, via the
right-to-left direction of the amended equivalence. -/
theorem C2_flag_iff_present_witness :
    (calculate_entry_exit_vwap (some 600000) (some zeroPriceKlines5)
        (some zeroPriceKlines5) 1).2.2.2.2 = true := by
  apply (C2_flag_iff_present (some 600000) (some zeroPriceKlines5)
    (some zeroPriceKlines5) 1).mpr
  refine ⟨?_, ?_, ?_, ?_⟩ <;>
    norm_num [calculate_entry_exit_vwap, calculate_vwap, vwapWindow,
      zeroPriceKlines5, typicalPrice, List.filter]

/-- Claim C3 is false as stated: on three candles with zero prices and
volume 1 the computed VWAP is `0`, which is not strictly positive. -/
theorem C3_counterexample :
    calculate_vwap zeroPriceKlines3 0 2 3 = some 0 ∧ ¬ ((0:ℚ) > 0) := by
  constructor
  · norm_num [calculate_vwap, vwapWindow, zeroPriceKlines3, typicalPrice,
      List.filter]
  · exact lt_irrefl 0

/-- Claim C3 (amended): `calculate_vwap` returns `none` exactly on the
"insufficient data" conditions (fewer than `m` candles in the window, or a
zero volume sum); otherwise it returns
`Σ(typical_price * volume) / Σ(volume)`; and the returned value is strictly
positive provided the window's candles have strictly positive prices and
non-negative volumes. -/
theorem C3_vwap_spec (klines : List Candle) (s e : Int) (m : Nat) :
    (((vwapWindow klines s e).length < m ∨
        ((vwapWindow klines s e).map Candle.volume).sum = 0) →
      calculate_vwap klines s e m = none) ∧
    (¬ (vwapWindow klines s e).length < m →
      ((vwapWindow klines s e).map Candle.volume).sum ≠ 0 →
      calculate_vwap klines s e m =
        some (((vwapWindow klines s e).map fun c => typicalPrice c * c.volume).sum /
          ((vwapWindow klines s e).map Candle.volume).sum)) ∧
    ((∀ c ∈ vwapWindow klines s e, 0 < c.high ∧ 0 < c.low ∧ 0 < c.close ∧ 0 ≤ c.volume) →
      ∀ v, calculate_vwap klines s e m = some v → 0 < v) := by
  refine ⟨?_, ?_, ?_⟩
  · intro h
    unfold calculate_vwap
    rcases h with h | h
    · rw [if_pos h]
    · split
      · rfl
      · rfl
  · intro h1 h2
    unfold calculate_vwap
    rw [if_neg h1, if_neg h2]
  · intro hc v hv
    obtain ⟨hlen, hD, hveq⟩ := calculate_vwap_eq_some klines s e m v hv
    have hDnn : 0 ≤ ((vwapWindow klines s e).map Candle.volume).sum :=
      sum_map_nonneg_q _ _ (fun c hcm => (hc c hcm).2.2.2)
    have hDpos := lt_of_le_of_ne hDnn (Ne.symm hD)
    have hN : 0 < ((vwapWindow klines s e).map fun c => typicalPrice c * c.volume).sum := by
      apply sum_typical_mul_vol_pos
      · intro c hcm
        obtain ⟨hhi, hlo, hcl, hvol⟩ := hc c hcm
        refine ⟨?_, hvol⟩
        unfold typicalPrice
        linarith
      · exact hDpos
    rw [hveq]
    exact div_pos hN hDpos

/-- Witness for C3: on three flat candles (high 10, low 8, close 9,
volume 1) the VWAP equals the quotient formula, and it is strictly
positive (its value is 9). -/
theorem C3_vwap_spec_witness :
    calculate_vwap flatKlines 0 2 3 =
      some (((vwapWindow flatKlines 0 2).map fun c => typicalPrice c * c.volume).sum /
        ((vwapWindow flatKlines 0 2).map Candle.volume).sum) ∧
    (0:ℚ) < 9 := by
  have hw : vwapWindow flatKlines 0 2 = flatKlines := by decide
  constructor
  · exact (C3_vwap_spec flatKlines 0 2 3).2.1
      (by rw [hw]; norm_num [flatKlines])
      (by rw [hw]; norm_num [flatKlines])
  · exact (C3_vwap_spec flatKlines 0 2 3).2.2 (by decide) 9
      (by norm_num [calculate_vwap, vwapWindow, flatKlines, typicalPrice,
        List.filter])

/-- Claim C7: the direction resolver raises a validation error if and only
if the two pay flags are equal (both true or both false); when the engine
meets such an opportunity (validity flag set, all VWAPs present), it counts
exactly one failure, leaves the state unchanged and continues with the
remaining opportunities. -/
theorem C7_pay_flags (bybit_pay binance_pay : Bool)
    (bybit_rate binance_rate : ℚ) :
    ((∃ msg, determine_direction bybit_pay binance_pay bybit_rate binance_rate =
        Except.error msg) ↔ bybit_pay = binance_pay) ∧
    (∀ (st : EngineState) (failed : Nat) (opp : Opportunity)
        (rest : List Opportunity),
      opp.bybit_pay = opp.binance_pay →
      opp.vwap_valid = true →
      opp.vwap_entry_binance.isNone = false →
      opp.vwap_exit_binance.isNone = false →
      opp.vwap_entry_bybit.isNone = false →
      opp.vwap_exit_bybit.isNone = false →
      processOpportunity st failed opp = (st, failed + 1) ∧
      runFold (opp :: rest) st failed = runFold rest st (failed + 1)) := by
  constructor
  · constructor
    · rintro ⟨msg, hmsg⟩
      by_contra hne
      rw [determine_direction_table bybit_pay binance_pay bybit_rate binance_rate hne]
        at hmsg
      split at hmsg <;> split at hmsg <;> simp at hmsg
    · intro h
      exact ⟨_, determine_direction_error_of_eq _ _ _ _ h⟩
  · intro st failed opp rest hflags hvalid h1 h2 h3 h4
    have hmain : processOpportunity st failed opp = (st, failed + 1) := by
      unfold processOpportunity
      rw [if_neg (by simp [hvalid]), if_neg (by simp [h1, h2, h3, h4]),
        determine_direction_error_of_eq _ _ _ _ hflags]
    exact ⟨hmain, by rw [runFold_cons, hmain]⟩

/-- Witness for C7: both pay flags true raises the validation error, and
the engine skips that opportunity (failed count 0 becomes 1, state
unchanged). -/
theorem C7_pay_flags_witness :
    (∃ msg, determine_direction true true 0 0 = Except.error msg) ∧
    processOpportunity (initEngine 100 scenarioConfig) 0 bothPayOpp =
      (initEngine 100 scenarioConfig, 1) :=
  ⟨(C7_pay_flags true true 0 0).1.mpr rfl,
    ((C7_pay_flags true true 0 0).2 (initEngine 100 scenarioConfig) 0
      bothPayOpp [] rfl rfl rfl rfl rfl rfl).1⟩

/-- Claim C8: whenever `calculate_vwap` returns a value on a window whose
candles satisfy `low <= close <= high` and have non-negative volume, the
value lies within every interval `[a, b]` that contains all the window's
`[low, high]` ranges — in particular within
`[min low over the window, max high over the window]`. -/
theorem C8_vwap_bounded (klines : List Candle) (s e : Int) (m : Nat)
    (v a b : ℚ)
    (hcand : ∀ c ∈ vwapWindow klines s e,
      c.low ≤ c.close ∧ c.close ≤ c.high ∧ 0 ≤ c.volume)
    (ha : ∀ c ∈ vwapWindow klines s e, a ≤ c.low)
    (hb : ∀ c ∈ vwapWindow klines s e, c.high ≤ b)
    (hv : calculate_vwap klines s e m = some v) :
    a ≤ v ∧ v ≤ b := by
  obtain ⟨hlen, hD, hveq⟩ := calculate_vwap_eq_some klines s e m v hv
  have hDnn : 0 ≤ ((vwapWindow klines s e).map Candle.volume).sum :=
    sum_map_nonneg_q _ _ (fun c hc => (hcand c hc).2.2)
  have hDpos := lt_of_le_of_ne hDnn (Ne.symm hD)
  have hupper : ((vwapWindow klines s e).map fun c => typicalPrice c * c.volume).sum ≤
      b * ((vwapWindow klines s e).map Candle.volume).sum := by
    rw [← sum_map_mul_left_q (vwapWindow klines s e) Candle.volume b]
    apply List.sum_le_sum
    intro c hc
    obtain ⟨hlc, hch, hvol⟩ := hcand c hc
    have hcb := hb c hc
    have htp : typicalPrice c ≤ b := by
      unfold typicalPrice
      linarith
    exact mul_le_mul_of_nonneg_right htp hvol
  have hlower : a * ((vwapWindow klines s e).map Candle.volume).sum ≤
      ((vwapWindow klines s e).map fun c => typicalPrice c * c.volume).sum := by
    rw [← sum_map_mul_left_q (vwapWindow klines s e) Candle.volume a]
    apply List.sum_le_sum
    intro c hc
    obtain ⟨hlc, hch, hvol⟩ := hcand c hc
    have hca := ha c hc
    have htp : a ≤ typicalPrice c := by
      unfold typicalPrice
      linarith
    exact mul_le_mul_of_nonneg_right htp hvol
  subst hveq
  constructor
  · rw [le_div_iff₀ hDpos]
    exact hlower
  · rw [div_le_iff₀ hDpos]
    exact hupper

/-- Witness for C8: the flat-candle VWAP 9 lies within the window's price
range `[8, 10]`. -/
theorem C8_vwap_bounded_witness :
    calculate_vwap flatKlines 0 2 3 = some 9 ∧ (8:ℚ) ≤ 9 ∧ (9:ℚ) ≤ 10 := by
  have hv : calculate_vwap flatKlines 0 2 3 = some 9 := by
    norm_num [calculate_vwap, vwapWindow, flatKlines, typicalPrice, List.filter]
  exact ⟨hv, C8_vwap_bounded flatKlines 0 2 3 9 8 10
    (by decide) (by decide) (by decide) hv⟩

end FundingArb
